import Mathlib

/-!
Shallow embedding of the Tool Meister startup orchestrator
(`lib/pbench/agent/tool_meister_start.py`) of pbench, together with
theorems settling the specification claims about it.

The embedding follows the Python source: machine-level effects (fork,
ssh submission, Redis publishes, the wall clock) are represented by
explicit outcome parameters, and each Python function whose behavior a
claim mentions is translated into an executable Lean definition over
those parameters.
-/

/-- Symbolic return codes from the `ReturnCode` class of
`tool_meister_start.py` (only the constructors the claims mention).
`SUCCESS` comes from the inherited `BaseReturnCode`; per the module
docstring and spec, code 0 is reserved for full success. -/
inductive RC where
  | SUCCESS
  | BADTOOLGROUP
  | NOIP
  | TDSFORKFAILED
  | TDSLOGPUBFAILED
  | TMFAILURES
  | TDSWAITFAILURE
  | TDSSTARTUPTIMEOUT
  | TOOLGROUPEXC
  | TMMISSING
  | KEYBOARDINTERRUPT
  deriving DecidableEq

/-- The numeric values assigned to the symbolic codes in the
`ReturnCode` class body of `tool_meister_start.py`. -/
def RC.code : RC → Nat
  | .SUCCESS => 0
  | .BADTOOLGROUP => 1
  | .NOIP => 10
  | .TDSFORKFAILED => 17
  | .TDSLOGPUBFAILED => 18
  | .TMFAILURES => 19
  | .TDSWAITFAILURE => 21
  | .TDSSTARTUPTIMEOUT => 26
  | .TOOLGROUPEXC => 27
  | .TMMISSING => 30
  | .KEYBOARDINTERRUPT => 41

/- ### `start_tms_via_ssh` (lines 281-409): fan-out launcher -/

/-- Outcome of issuing a launch for one host: either the attempt
(`os.fork()` for a local host, `template.start(...)` for a remote one)
raises an exception, or it succeeds. -/
inductive LaunchOutcome where
  | raises
  | ok
  deriving DecidableEq

/-- Scripted per-host behavior for one entry of
`tool_group.hostnames`: whether the host is local
(`lrh.is_local(host)`), what its launch attempt does, and what the
join observes (`joinRaises` models `_waitpid` raising for a forked
host; `exitStatus` is the exit status `_waitpid` returns for a forked
host, or `template.wait(host).status` for a spawned host). -/
structure HostSpec where
  name : String
  isLocal : Bool
  launch : LaunchOutcome
  joinRaises : Bool
  exitStatus : Nat
  deriving DecidableEq

/-- The `status` recorded in the `tms` dict for a host after its
launch attempt (the `LaunchRecord` disposition of the spec). -/
inductive Disposition where
  | failed
  | forked
  | spawned
  deriving DecidableEq

/-- Observable event trace entries of `start_tms_via_ssh`: issuing a
launch attempt for a host, and joining (waiting on) a host. -/
inductive TmEvent where
  | launch (host : String)
  | join (host : String)
  deriving DecidableEq

/-- One iteration of the first (`for host in
tool_group.hostnames.keys()`) loop of `start_tms_via_ssh`: returns the
recorded disposition and the number of `failures` increments performed
during the launch attempt.  A local fork exception does `failures += 1`
and records `failed`; a remote submission exception records `failed`
without touching the counter; successful attempts record
`forked`/`spawned`. -/
def launchOne (h : HostSpec) : Disposition × Nat :=
  if h.isLocal then
    match h.launch with
    | .raises => (.failed, 1)
    | .ok => (.forked, 0)
  else
    match h.launch with
    | .raises => (.failed, 0)
    | .ok => (.spawned, 0)

/-- Result of the launch loop: the `tms` records in insertion order,
the `failures` accumulated so far, and the launch events issued. -/
structure LaunchOut where
  recs : List (HostSpec × Disposition)
  failures : Nat
  trace : List TmEvent
  deriving DecidableEq

/-- The first loop of `start_tms_via_ssh` (lines 311-357): every host
gets a launch attempt and a `tms` record, in order. -/
def launchPhase : List HostSpec → LaunchOut
  | [] => ⟨[], 0, []⟩
  | h :: rest =>
    let d := launchOne h
    let r := launchPhase rest
    ⟨(h, d.1) :: r.recs, d.2 + r.failures, TmEvent.launch h.name :: r.trace⟩

/-- One iteration of the join loop for a recorded host: returns the
increments to `(successes, failures)`.  A `failed` record adds another
failure; a `forked` record is waited on via `_waitpid` (an exception
or a non-zero exit is a failure); a `spawned` record is waited on via
`template.wait` (a non-zero status is a failure). -/
def joinOne (h : HostSpec) (d : Disposition) : Nat × Nat :=
  match d with
  | .failed => (0, 1)
  | .forked =>
    if h.joinRaises then (0, 1)
    else if h.exitStatus ≠ 0 then (0, 1) else (1, 0)
  | .spawned =>
    if h.exitStatus ≠ 0 then (0, 1) else (1, 0)

/-- Result of the join loop: `successes`, the `failures` increments of
the join phase, and the join events. -/
structure JoinOut where
  successes : Nat
  failures : Nat
  trace : List TmEvent
  deriving DecidableEq

/-- The second (`for host, tm_proc in tms.items()`) loop of
`start_tms_via_ssh` (lines 359-394). -/
def joinPhase : List (HostSpec × Disposition) → JoinOut
  | [] => ⟨0, 0, []⟩
  | (h, d) :: rest =>
    let r := joinOne h d
    let j := joinPhase rest
    ⟨r.1 + j.successes, r.2 + j.failures, TmEvent.join h.name :: j.trace⟩

/-- Terminal outcome of `start_tms_via_ssh`: the entry assertion
(`assert len(tool_group.hostnames) > 0`) failing, the defensive
bookkeeping assertion (lines 396-398) failing, one of the two
`StartTmsErr` raises, or a normal return. -/
inductive TmsResult where
  | assertNoHosts
  | assertCountMismatch
  | errTMFAILURES
  | errTMMISSING
  | ok
  deriving DecidableEq

/-- The error-reporting epilogue of `start_tms_via_ssh` (lines
400-409), reached once the bookkeeping assertion has passed: raise
`StartTmsErr(..., TMFAILURES)` when `failures > 0`, else raise
`StartTmsErr(..., TMMISSING)` when `successes != tm_count`, else
return normally. -/
def reportFailures (tmCount successes failures : Nat) : TmsResult :=
  if failures > 0 then .errTMFAILURES
  else if successes ≠ tmCount then .errTMMISSING
  else .ok

/-- Full observable state of one run of `start_tms_via_ssh`. -/
structure TmsRun where
  tmCount : Nat
  successes : Nat
  failures : Nat
  trace : List TmEvent
  result : TmsResult
  deriving DecidableEq

/-- `start_tms_via_ssh` (lines 281-409), as a function of the scripted
per-host outcomes: the launch loop, then the join loop, then the
defensive assertion `tm_count == successes + failures`, then the
error-reporting epilogue. -/
def start_tms_via_ssh (hosts : List HostSpec) : TmsRun :=
  if hosts.isEmpty then ⟨0, 0, 0, [], .assertNoHosts⟩
  else
    let l := launchPhase hosts
    let j := joinPhase l.recs
    let successes := j.successes
    let failures := l.failures + j.failures
    let tmCount := hosts.length
    ⟨tmCount, successes, failures, l.trace ++ j.trace,
      if tmCount ≠ successes + failures then .assertCountMismatch
      else reportFailures tmCount successes failures⟩

/- ### `ToolDataSink.start` (lines 422-505): daemonization, readiness poll, PID file -/

/-- `_TDS_STARTUP_TIMEOUT` (line 181): ceiling, in seconds, on waiting
for the Tool Data Sink to start listening on its logging channel. -/
def _TDS_STARTUP_TIMEOUT : Nat := 60

/-- Outcome of one `redis_client.publish` on the logging channel
inside the readiness loop: the publish raises, or returns a subscriber
count. -/
inductive PubOutcome where
  | raised
  | count (n : Nat)
  deriving DecidableEq

/-- The readiness-poll loop of `ToolDataSink.start` (lines 472-495),
over the trace of publish attempts.  Each list entry pairs the wall
clock reading (milliseconds) at that attempt's post-publish timeout
check with the attempt's outcome; `dl` is the precomputed `timeout`
deadline (`time.time() + _TDS_STARTUP_TIMEOUT` from line 474).  A
raising publish raises `Err(..., TDSLOGPUBFAILED)`; a non-zero
subscriber count leaves the loop; a zero count past the deadline
raises `Err(..., TDSSTARTUPTIMEOUT)`, and otherwise the loop sleeps
100ms (advancing the clock before the next entry) and retries.
`some none` means the loop was left normally, `some (some c)` that it
raised the code `c`, and `none` that the finite trace ended before the
loop decided (unreachable in the program, whose clock eventually
passes any deadline). -/
def pollLoop (dl : Nat) : List (Nat × PubOutcome) → Option (Option RC)
  | [] => none
  | (_, .raised) :: _ => some (some .TDSLOGPUBFAILED)
  | (_, .count (_ + 1)) :: _ => some none
  | (t, .count 0) :: rest =>
    if dl < t then some (some .TDSSTARTUPTIMEOUT) else pollLoop dl rest

/-- Outcome of the guarded fork-and-daemonize block of
`ToolDataSink.start` (lines 436-470): `os.fork()` raises, `_waitpid`
raises, or the first-generation child exits with the given status. -/
inductive ForkWaitOutcome where
  | forkExc
  | waitpidExc
  | exited (status : Nat)
  deriving DecidableEq

/-- Whether the `try` block of lines 436-466 raises.  A fork
exception, a `_waitpid` exception, and the `Err(..., TDSWAITFAILURE)`
raised on a non-zero daemonization exit status all leave the block by
exception; all of them are caught by the `except Exception` clause of
line 467, which re-raises `Err(..., TDSFORKFAILED)`. -/
def forkWaitRaises : ForkWaitOutcome → Bool
  | .exited 0 => false
  | _ => true

/-- The machine-outcome parameters of one `ToolDataSink.start` run. -/
structure TdsStartIn where
  fw : ForkWaitOutcome
  pubs : List (Nat × PubOutcome)
  pidFileExists : Bool
  deriving DecidableEq

/-- `ToolDataSink.start` (lines 422-505): the guarded
fork-and-daemonize block (any failure there surfaces as
`TDSFORKFAILED`), then the readiness poll, then the check that
daemonization created `pbench-tool-data-sink.pid` in the working
directory, whose absence raises `Err(..., TDSWAITFAILURE)`.
`some none` is a normal return, `some (some c)` a raise of code `c`,
`none` an undecided (truncated) poll trace. -/
def tds_start (dl : Nat) (inp : TdsStartIn) : Option (Option RC) :=
  if forkWaitRaises inp.fw then some (some .TDSFORKFAILED)
  else
    match pollLoop dl inp.pubs with
    | none => none
    | some (some c) => some (some c)
    | some none =>
      some (if inp.pidFileExists then none else some .TDSWAITFAILURE)

/- ### `ToolDataSink.wait` (lines 507-534) and its caller (lines 1231-1235) -/

/-- A JSON message from the `<prefix>-to-client` reply channel, as
seen by `ToolDataSink.wait`: each of the `kind`/`action`/`status`
fields is present (`some`) or absent (`none`, producing a `KeyError`
on access). -/
structure DsMsg where
  kind : Option String
  action : Option String
  status : Option String
  deriving DecidableEq

/-- A message that `ToolDataSink.wait` logs and skips: one lacking any
of the `kind`/`action`/`status` fields, or whose `kind` is not `"ds"`,
or whose `action` is not `"startup"`. -/
def skipsMsg (m : DsMsg) : Prop :=
  m.kind = none ∨ m.action = none ∨ m.status = none
    ∨ m.kind ≠ some "ds" ∨ m.action ≠ some "startup"

instance (m : DsMsg) : Decidable (skipsMsg m) := by
  unfold skipsMsg
  infer_instance

/-- `ToolDataSink.wait` (lines 507-534) over the sequence of messages
the reply-channel subscription yields: a message missing one of the
three fields raises `KeyError` and is skipped, a `kind` other than
`"ds"` or an `action` other than `"startup"` is skipped, and the first
matching message breaks the loop, the method returning 0 when its
`status` is `"success"` and 1 otherwise.  `none` models the
subscription (which blocks forever) never yielding a matching
message within the listed trace. -/
def tds_wait : List DsMsg → Option Nat
  | [] => none
  | m :: rest =>
    match m.kind, m.action, m.status with
    | some kind, some action, some status =>
      if kind ≠ "ds" then tds_wait rest
      else if action ≠ "startup" then tds_wait rest
      else some (if status = "success" then 0 else 1)
    | _, _, _ => tds_wait rest

/-- Step 7 of `start` (lines 1231-1235): a non-zero value returned by
`tool_data_sink.wait` raises `CleanupTime(TDSWAITFAILURE, ...)`. -/
def tds_wait_check (ret_val : Nat) : Option RC :=
  if ret_val ≠ 0 then some .TDSWAITFAILURE else none

/- ### `start` step 1 (lines 786-805): empty-group short-circuit -/

/-- Outcome of `ToolGroup(cli_params.tool_group)` in `start`:
`BadToolGroup`, another exception, or the loaded host name list. -/
inductive ToolGroupLoad where
  | badToolGroup
  | exc
  | ok (hostnames : List String)
  deriving DecidableEq

/-- Observable resource-acquiring effects of the orchestrator, used to
state that the empty-group path performs none of them. -/
inductive Effect where
  | redisStarted
  | tdsStarted
  | busKeySet (key : String)
  | cleanupRegistered (description : String)
  | cleanupRun
  deriving DecidableEq

/-- Step 1 of `start` (lines 786-805): load the tool group (a
`BadToolGroup` error returns `BADTOOLGROUP`, any other exception
returns `TOOLGROUPEXC`, each before anything else happens), and, on
success, return `SUCCESS` immediately when the group has no host
names.  Everything from line 807 on — including creating the
`Cleanup` recovery stack (line 923), starting the Redis server and
data sink, and writing bus keys — is the continuation `rest`, entered
only with a non-empty host list. -/
def startStep1 (load : ToolGroupLoad)
    (rest : List String → RC × List Effect) : RC × List Effect :=
  match load with
  | .badToolGroup => (.BADTOOLGROUP, [])
  | .exc => (.TOOLGROUPEXC, [])
  | .ok hostnames =>
    if hostnames.isEmpty then (.SUCCESS, []) else rest hostnames

/- ### `RedisServer.start` (lines 596-673): bind-address list -/

/-- The bind-address computation of `RedisServer.start` (lines
609-673), with `socket.gethostbyname` modelled by the `resolve`
parameter (`none` = `socket.error`).  Returns the
`(bind_hostnames_l, local_host)` pair on success: an unresolvable
`bind_host` or `host` raises `Err(..., NOIP)`; when `host` differs
from `bind_host` the caller's choice is honored unchanged; a wildcard
`"0.0.0.0"` bind keeps only itself (local access via `"127.0.0.1"`);
otherwise `"localhost"` is appended exactly when it resolves to an IP
different from `bind_host`'s. -/
def redisBindList (host bind_host : String)
    (resolve : String → Option String) : Except RC (List String × String) :=
  match resolve bind_host with
  | none => .error .NOIP
  | some bind_host_ip =>
    match resolve host with
    | none => .error .NOIP
    | some _ =>
      if host ≠ bind_host then .ok ([bind_host], host)
      else if bind_host = "0.0.0.0" then .ok ([bind_host], "127.0.0.1")
      else
        match resolve "localhost" with
        | none => .ok ([bind_host], host)
        | some localhost_ip =>
          if bind_host_ip ≠ localhost_ip then
            .ok ([bind_host, "localhost"], "localhost")
          else .ok ([bind_host], host)

/-- Concrete name resolution exhibiting the gap in the claim about
`RedisServer.start`: two distinct resolvable hosts, with
`"localhost"` resolving to the loopback address. -/
def cexResolve : String → Option String := fun s =>
  if s = "hostA" then some "10.0.0.1"
  else if s = "hostB" then some "10.0.0.2"
  else if s = "localhost" then some "127.0.0.1"
  else none

/- ### Endpoint spec parsing (spec §4.1; `BaseServer` construction at
lines 1015-1023 of `tool_meister_start.py`, parser source not vendored) -/

/-- Split a character string at every occurrence of `c` (the behavior
of Python `str.split(c)` for a single-character separator). -/
def splitOnChar (c : Char) : List Char → List (List Char)
  | [] => [[]]
  | x :: xs =>
    if x = c then [] :: splitOnChar c xs
    else
      match splitOnChar c xs with
      | [] => [[x]]
      | y :: ys => (x :: y) :: ys

/-- Accumulator pass of decimal-digit decoding; `none` as soon as a
non-digit character appears. -/
def decodeDigitsAux : Nat → List Char → Option Nat
  | acc, [] => some acc
  | acc, c :: cs =>
    if c.isDigit then decodeDigitsAux (acc * 10 + (c.toNat - 48)) cs
    else none

/-- Decimal value of a non-empty digit string, else `none`. -/
def decodeDigits : List Char → Option Nat
  | [] => none
  | cs => decodeDigitsAux 0 cs

/-- Modelled from the spec: port-field validation of the Endpoint Spec
Resolver (`BaseServer.__init__` in `pbench/agent/utils.py`, not among
the vendored sources) — a port is parsed as a decimal number and must
lie in the range 1-65535, each failure being a distinct error
(collapsed here into `none`). -/
def parsePort (s : List Char) : Option Nat :=
  match decodeDigits s with
  | none => none
  | some v => if 1 ≤ v ∧ v ≤ 65535 then some v else none

/-- Modelled from the spec: one half of an endpoint specification,
with grammar `[host][:port]` — a missing host field defaults to the
supplied default hostname and a missing port field to the
role-specific well-known port; an unparsable port is an error. -/
def parseHalf (defHost : List Char) (defPort : Nat) (s : List Char) :
    Option (List Char × Nat) :=
  match splitOnChar ':' s with
  | [h] => some (if h = [] then defHost else h, defPort)
  | [h, p] =>
    match parsePort p with
    | none => none
    | some v => some (if h = [] then defHost else h, v)
  | _ => none

/-- The resolved endpoint descriptor `{bind_host, bind_port, host,
port}` of the spec's data model (the four `BaseServer` fields). -/
structure EndpointSpec where
  bind_host : List Char
  bind_port : Nat
  host : List Char
  port : Nat
  deriving DecidableEq

/-- Modelled from the spec: the Endpoint Spec Resolver
(`BaseServer.__init__`, not among the vendored sources).  Grammar
`[[bindhost][:bindport]][;[connhost][:connport]]`: an absent spec
gives all defaults; without a semicolon the single `host:port` pair
serves both the bind and the connect role; with a semicolon the first
half binds and the second connects. -/
def parseSpec (defHost : List Char) (defPort : Nat)
    (s : Option (List Char)) : Option EndpointSpec :=
  match s with
  | none => some ⟨defHost, defPort, defHost, defPort⟩
  | some spec =>
    match splitOnChar ';' spec with
    | [single] =>
      match parseHalf defHost defPort single with
      | none => none
      | some (h, p) => some ⟨h, p, h, p⟩
    | [b, c] =>
      match parseHalf defHost defPort b, parseHalf defHost defPort c with
      | some (bh, bp), some (ch, cp) => some ⟨bh, bp, ch, cp⟩
      | _, _ => none
    | _ => none

/- ### `terminate_no_wait` (lines 709-743) and `json.dumps(..., sort_keys=True)` -/

/-- The JSON values `tool_meister_start.py` serializes: nulls,
booleans, strings, and objects. -/
inductive JVal where
  | null
  | bool (b : Bool)
  | str (s : String)
  | obj (fields : List (String × JVal))

/-- JSON rendering of a string: quote-wrapped.  (Escaping of special
characters inside the string is elided: the names serialized by the
module never contain any.) -/
def jstr (s : String) : String := "\"" ++ s ++ "\""

/-- Lexicographic comparison of character lists by code point, the
order `sort_keys=True` sorts JSON object keys in. -/
def charListLe : List Char → List Char → Bool
  | [], _ => true
  | _ :: _, [] => false
  | a :: as, b :: bs =>
    if a < b then true else if b < a then false else charListLe as bs

/-- `sort_keys` string order on keys. -/
def strLeB (a b : String) : Bool := charListLe a.data b.data

/-- Ordered insertion of a key-value pair by key. -/
def insertField (kv : String × JVal) :
    List (String × JVal) → List (String × JVal)
  | [] => [kv]
  | x :: xs => if strLeB kv.1 x.1 then kv :: x :: xs else x :: insertField kv xs

/-- Stable insertion sort of object fields by key. -/
def sortFields : List (String × JVal) → List (String × JVal)
  | [] => []
  | x :: xs => insertField x (sortFields xs)

/-- Recursively sort the fields of every object, as
`json.dumps(..., sort_keys=True)` does at every nesting level.  The
fuel argument bounds the nesting depth (the serializer recurses to
arbitrary depth; every message built by this module nests at most two
levels, so the fixed fuel of `dumpsSorted` is never exhausted). -/
def sortJsonF : Nat → JVal → JVal
  | 0, v => v
  | fuel + 1, .obj fs =>
    .obj (sortFields (fs.map (fun kv => (kv.1, sortJsonF fuel kv.2))))
  | _ + 1, v => v

/-- Join rendered object members with the `json.dumps` default item
separator `", "`. -/
def joinComma : List String → String
  | [] => ""
  | [x] => x
  | x :: xs => x ++ ", " ++ joinComma xs

/-- Serialize a JSON value with the `json.dumps` defaults: `null`,
`true`/`false`, `", "` between object members and `": "` after each
key.  Fuel bounds nesting depth as in `sortJsonF`. -/
def jdumpF : Nat → JVal → String
  | 0, _ => ""
  | _ + 1, .null => "null"
  | _ + 1, .bool b => if b then "true" else "false"
  | _ + 1, .str s => jstr s
  | fuel + 1, .obj fs =>
    "\x7b" ++ joinComma (fs.map (fun kv => jstr kv.1 ++ ": " ++ jdumpF fuel kv.2))
      ++ "\x7d"

/-- `json.dumps(v, sort_keys=True)` for the values this module
serializes. -/
def dumpsSorted (v : JVal) : String := jdumpF 4 (sortJsonF 4 v)

/-- The `terminate_msg` dict built by `terminate_no_wait` (lines
729-734): `action` "terminate", the tool group name, a null
directory, and `args` with `interrupt` hardwired to `False` — also
when the cleanup invoking it (registered at lines 1184-1192) was
triggered by a user interrupt. -/
def terminate_msg (tool_group_name : String) : JVal :=
  .obj [("action", .str "terminate"),
        ("group", .str tool_group_name),
        ("directory", .null),
        ("args", .obj [("interrupt", .bool false)])]

/-- `terminate_no_wait` (lines 709-743) with the Redis publish
modelled by `publish` (`Except.error` = the publish raises).  Returns
the payload handed to `publish` and the function's own outcome: both
the exception branch (`logger.exception`, swallowed) and the normal
branch (`logger.debug`) return `None`, so the function never
propagates an error. -/
def terminate_no_wait (tool_group_name : String)
    (publish : String → Except Unit Nat) : String × Except Unit Unit :=
  let payload := dumpsSorted (terminate_msg tool_group_name)
  match publish payload with
  | .error _ => (payload, .ok ())
  | .ok _ => (payload, .ok ())

/- ### Theorems -/

/-- C1: the spec claims that for every tool group with N ≥ 1 hosts and
every mix of launch outcomes `successes + failures == N` holds when the
end-of-join assertion runs, so that the defensive assertion never
fires, a launch-time exception being counted as failed exactly once.
The code violates this: a local fork exception increments `failures`
at launch time (line 341) and records `{"status": "failed"}`, and the
join loop then increments `failures` again for the same `failed`
record (line 361).  With a single local host whose fork raises,
`failures` ends at 2 with `successes` at 0, so `successes + failures`
is 2 ≠ 1 and the assertion fires. -/
theorem tm_launch_double_count_bug :
    (start_tms_via_ssh [⟨"localhost", true, .raises, false, 0⟩]).failures = 2
    ∧ (start_tms_via_ssh [⟨"localhost", true, .raises, false, 0⟩]).successes = 0
    ∧ (start_tms_via_ssh [⟨"localhost", true, .raises, false, 0⟩]).result
        = TmsResult.assertCountMismatch := by
  decide

/-- C2: the error-reporting epilogue of `start_tms_via_ssh` raises the
aggregate `TMFAILURES` error exactly when the counted per-host
`failures` are greater than zero; when `failures == 0` but
`successes != tm_count` it raises the distinct `TMMISSING` error; and
when `failures == 0` and `successes == tm_count` it returns normally. -/
theorem tm_report_failures_iff (n s f : Nat) :
    (reportFailures n s f = TmsResult.errTMFAILURES ↔ 0 < f)
    ∧ (f = 0 → s ≠ n → reportFailures n s f = TmsResult.errTMMISSING)
    ∧ (f = 0 → s = n → reportFailures n s f = TmsResult.ok) := by
  refine ⟨?_, ?_, ?_⟩
  · constructor
    · intro h
      by_contra hf
      have hf0 : f = 0 := Nat.eq_zero_of_not_pos hf
      subst hf0
      simp only [reportFailures] at h
      by_cases hs : s ≠ n <;> simp [hs] at h
    · intro hf
      simp [reportFailures, hf]
  · intro hf hs
    subst hf
    simp [reportFailures, hs]
  · intro hf hs
    subst hf
    subst hs
    simp [reportFailures]

/-- Witness for C2 at concrete counts. -/
theorem tm_report_failures_iff_witness :
    reportFailures 3 2 1 = TmsResult.errTMFAILURES
    ∧ reportFailures 2 1 0 = TmsResult.errTMMISSING
    ∧ reportFailures 2 2 0 = TmsResult.ok :=
  ⟨(tm_report_failures_iff 3 2 1).1.mpr (by decide),
   (tm_report_failures_iff 2 1 0).2.1 rfl (by decide),
   (tm_report_failures_iff 2 2 0).2.2 rfl rfl⟩

theorem pollLoop_skip_zeros (dl : Nat) (zs : List (Nat × PubOutcome))
    (hz : ∀ p ∈ zs, p.2 = PubOutcome.count 0 ∧ p.1 ≤ dl)
    (l : List (Nat × PubOutcome)) :
    pollLoop dl (zs ++ l) = pollLoop dl l := by
  induction zs with
  | nil => rfl
  | cons p rest ih =>
    obtain ⟨t, o⟩ := p
    obtain ⟨ho, ht⟩ := hz (t, o) (List.mem_cons_self _ _)
    subst ho
    have hnd : ¬ dl < t := Nat.not_lt.mpr ht
    simp only [List.cons_append, pollLoop, if_neg hnd]
    exact ih fun q hq => hz q (List.mem_cons_of_mem _ hq)

/-- C3: the readiness poll of `ToolDataSink.start`, after any prefix
of zero-subscriber publishes observed within the 60-second deadline,
(a) leaves the loop normally as soon as a publish returns a non-zero
subscriber count, (b) raises the distinct timeout error
`TDSSTARTUPTIMEOUT` when a publish again returns zero subscribers
past the deadline (so a trace of publishes that all return zero within
the ceiling ends in the timeout error once the clock passes it), and
(c) raises the distinct error `TDSLOGPUBFAILED` when a publish itself
raises. -/
theorem tds_poll_loop_behavior (t0 : Nat) (zs : List (Nat × PubOutcome))
    (hz : ∀ p ∈ zs, p.2 = PubOutcome.count 0
        ∧ p.1 ≤ t0 + 1000 * _TDS_STARTUP_TIMEOUT) :
    (∀ t n rest, pollLoop (t0 + 1000 * _TDS_STARTUP_TIMEOUT)
        (zs ++ (t, PubOutcome.count (n + 1)) :: rest) = some none)
    ∧ (∀ t rest, t0 + 1000 * _TDS_STARTUP_TIMEOUT < t →
        pollLoop (t0 + 1000 * _TDS_STARTUP_TIMEOUT)
          (zs ++ (t, PubOutcome.count 0) :: rest)
          = some (some RC.TDSSTARTUPTIMEOUT))
    ∧ (∀ t rest, pollLoop (t0 + 1000 * _TDS_STARTUP_TIMEOUT)
        (zs ++ (t, PubOutcome.raised) :: rest)
        = some (some RC.TDSLOGPUBFAILED)) := by
  refine ⟨?_, ?_, ?_⟩
  · intro t n rest
    rw [pollLoop_skip_zeros _ _ hz]
    rfl
  · intro t rest ht
    rw [pollLoop_skip_zeros _ _ hz]
    simp [pollLoop, ht]
  · intro t rest
    rw [pollLoop_skip_zeros _ _ hz]
    rfl

/-- Witness for C3: concrete poll traces with deadline 60000ms. -/
theorem tds_poll_loop_behavior_witness :
    pollLoop 60000 [(0, PubOutcome.count 0), (100, PubOutcome.count 3)]
      = some none
    ∧ pollLoop 60000 [(0, PubOutcome.count 0), (60001, PubOutcome.count 0)]
      = some (some RC.TDSSTARTUPTIMEOUT)
    ∧ pollLoop 60000 [(0, PubOutcome.count 0), (200, PubOutcome.raised)]
      = some (some RC.TDSLOGPUBFAILED) :=
  ⟨(tds_poll_loop_behavior 0 [(0, PubOutcome.count 0)] (by decide)).1 100 2 [],
   (tds_poll_loop_behavior 0 [(0, PubOutcome.count 0)] (by decide)).2.1 60001 []
     (by decide),
   (tds_poll_loop_behavior 0 [(0, PubOutcome.count 0)] (by decide)).2.2 200 []⟩

theorem pollLoop_code (dl : Nat) (l : List (Nat × PubOutcome)) (c : RC)
    (h : pollLoop dl l = some (some c)) :
    c = RC.TDSLOGPUBFAILED ∨ c = RC.TDSSTARTUPTIMEOUT := by
  induction l with
  | nil => simp [pollLoop] at h
  | cons p rest ih =>
    obtain ⟨t, o⟩ := p
    match o with
    | .raised =>
      simp only [pollLoop, Option.some.injEq] at h
      exact Or.inl h.symm
    | .count (n + 1) => simp [pollLoop] at h
    | .count 0 =>
      simp only [pollLoop] at h
      by_cases hd : dl < t
      · rw [if_pos hd] at h
        exact Or.inr (Option.some.injEq _ _ ▸ (Option.some.injEq _ _ ▸ h)).symm
      · rw [if_neg hd] at h
        exact ih h

theorem forkWaitRaises_false (fw : ForkWaitOutcome)
    (h : forkWaitRaises fw = false) : fw = ForkWaitOutcome.exited 0 := by
  match fw with
  | .forkExc => simp [forkWaitRaises] at h
  | .waitpidExc => simp [forkWaitRaises] at h
  | .exited 0 => rfl
  | .exited (n + 1) => simp [forkWaitRaises] at h

/-- C8: in `ToolDataSink.start` the absence of the expected
`pbench-tool-data-sink.pid` file after a successful readiness poll is
reported with `TDSWAITFAILURE`, and that code is produced by no other
failure path of the method: the whole guarded fork/daemonize block
(including a non-zero daemonization-wait exit status, whose inner
`TDSWAITFAILURE` raise is caught by `except Exception` and re-raised)
surfaces `TDSFORKFAILED`, and the readiness poll surfaces
`TDSLOGPUBFAILED` or `TDSSTARTUPTIMEOUT` — all distinct from
`TDSWAITFAILURE`. -/
theorem tds_pidfile_error_distinct (dl : Nat) (inp : TdsStartIn) :
    (inp.fw = ForkWaitOutcome.exited 0 → pollLoop dl inp.pubs = some none →
      inp.pidFileExists = false →
      tds_start dl inp = some (some RC.TDSWAITFAILURE))
    ∧ (∀ c, tds_start dl inp = some (some c) → c = RC.TDSWAITFAILURE →
        inp.fw = ForkWaitOutcome.exited 0 ∧ pollLoop dl inp.pubs = some none
          ∧ inp.pidFileExists = false)
    ∧ (∀ pubs2 pf n,
        tds_start dl ⟨ForkWaitOutcome.exited (n + 1), pubs2, pf⟩
          = some (some RC.TDSFORKFAILED)) := by
  refine ⟨?_, ?_, ?_⟩
  · intro h1 h2 h3
    simp [tds_start, forkWaitRaises, h1, h2, h3]
  · intro c hc hw
    subst hw
    unfold tds_start at hc
    by_cases hf : forkWaitRaises inp.fw
    · rw [if_pos hf] at hc
      simp at hc
    · rw [if_neg hf] at hc
      have hfw := forkWaitRaises_false inp.fw (by simpa using hf)
      cases hp : pollLoop dl inp.pubs with
      | none => rw [hp] at hc; simp at hc
      | some oc =>
        cases oc with
        | some c' =>
          rw [hp] at hc
          simp only [Option.some.injEq] at hc
          rcases pollLoop_code dl inp.pubs c' hp with h | h <;>
            simp [h] at hc
        | none =>
          rw [hp] at hc
          refine ⟨hfw, rfl, ?_⟩
          by_cases hpid : inp.pidFileExists
          · simp [hpid] at hc
          · simpa using hpid
  · intro pubs2 pf n
    simp [tds_start, forkWaitRaises]

/-- Witness for C8: a run with clean daemonization, an immediately
ready logging channel and a missing PID file surfaces
`TDSWAITFAILURE`. -/
theorem tds_pidfile_error_distinct_witness :
    tds_start 60000
        ⟨ForkWaitOutcome.exited 0, [(0, PubOutcome.count 1)], false⟩
      = some (some RC.TDSWAITFAILURE) :=
  (tds_pidfile_error_distinct 60000
      ⟨ForkWaitOutcome.exited 0, [(0, PubOutcome.count 1)], false⟩).1
    rfl rfl rfl

theorem launchPhase_trace (hosts : List HostSpec) :
    (launchPhase hosts).trace = hosts.map (fun h => TmEvent.launch h.name) := by
  induction hosts with
  | nil => rfl
  | cons h rest ih => simp [launchPhase, ih]

theorem joinPhase_trace_joins (recs : List (HostSpec × Disposition)) :
    ∀ e ∈ (joinPhase recs).trace, ∃ nm, e = TmEvent.join nm := by
  induction recs with
  | nil => intro e he; simp [joinPhase] at he
  | cons hd rest ih =>
    intro e he
    obtain ⟨h, d⟩ := hd
    simp only [joinPhase, List.mem_cons] at he
    rcases he with rfl | he
    · exact ⟨h.name, rfl⟩
    · exact ih e he

/-- C7: `start_tms_via_ssh` issues the launch attempt for every host
of the group (in order, regardless of the outcomes of earlier
launches) before it performs any join: the event trace is the launch
events of all hosts followed only by join events. -/
theorem tm_all_launch_before_join (hosts : List HostSpec) (h : hosts ≠ []) :
    ∃ js, (start_tms_via_ssh hosts).trace
        = hosts.map (fun h => TmEvent.launch h.name) ++ js
      ∧ ∀ e ∈ js, ∃ nm, e = TmEvent.join nm := by
  refine ⟨(joinPhase (launchPhase hosts).recs).trace, ?_, ?_⟩
  · have hne : hosts.isEmpty = false := by
      cases hosts with
      | nil => exact absurd rfl h
      | cons a t => rfl
    simp [start_tms_via_ssh, hne, launchPhase_trace]
  · exact joinPhase_trace_joins _

/-- Witness for C7: a two-host group (one local fork failure, one
remote success) has all launches issued before any join. -/
theorem tm_all_launch_before_join_witness :
    ∃ js, (start_tms_via_ssh
              [⟨"localhost", true, .raises, false, 0⟩,
               ⟨"remote1", false, .ok, false, 0⟩]).trace
        = List.map (fun h => TmEvent.launch h.name)
              ([⟨"localhost", true, .raises, false, 0⟩,
                ⟨"remote1", false, .ok, false, 0⟩] : List HostSpec) ++ js
      ∧ ∀ e ∈ js, ∃ nm, e = TmEvent.join nm :=
  tm_all_launch_before_join
    [⟨"localhost", true, .raises, false, 0⟩, ⟨"remote1", false, .ok, false, 0⟩]
    (by decide)

theorem tds_wait_skip (m : DsMsg) (hm : skipsMsg m) (l : List DsMsg) :
    tds_wait (m :: l) = tds_wait l := by
  obtain ⟨k, a, st⟩ := m
  match k, a, st with
  | none, _, _ => rfl
  | some k, none, _ => rfl
  | some k, some a, none => rfl
  | some k, some a, some st =>
    simp only [tds_wait]
    rcases hm with h | h | h | h | h
    · exact absurd h (by simp)
    · exact absurd h (by simp)
    · exact absurd h (by simp)
    · have hk : k ≠ "ds" := by simpa using h
      simp [hk]
    · have ha : a ≠ "startup" := by simpa using h
      by_cases hk : k = "ds"
      · simp [hk, ha]
      · simp [hk]

/-- C4: `ToolDataSink.wait` skips every reply-channel message lacking
one of the `kind`/`action`/`status` fields or whose kind is not
`"ds"` or whose action is not `"startup"`, and returns 0 exactly when
the first matching message has `status == "success"` (1 otherwise);
and the orchestrator turns a non-zero return into the fatal
`TDSWAITFAILURE` failure. -/
theorem tds_wait_first_matching (pre rest : List DsMsg) (s : String)
    (hpre : ∀ m ∈ pre, skipsMsg m) :
    tds_wait (pre ++ ⟨some "ds", some "startup", some s⟩ :: rest)
      = some (if s = "success" then 0 else 1)
    ∧ ∀ r : Nat, (tds_wait_check r = some RC.TDSWAITFAILURE ↔ r ≠ 0) := by
  constructor
  · induction pre with
    | nil => simp [tds_wait]
    | cons m pre' ih =>
      rw [List.cons_append,
        tds_wait_skip m (hpre m (List.mem_cons_self _ _))]
      exact ih fun q hq => hpre q (List.mem_cons_of_mem _ hq)
  · intro r
    constructor
    · intro h hr
      subst hr
      simp [tds_wait_check] at h
    · intro hr
      simp [tds_wait_check, hr]

/-- Witness for C4: two skipped messages followed by a matching
success message yield 0, and a return of 1 maps to `TDSWAITFAILURE`. -/
theorem tds_wait_first_matching_witness :
    tds_wait [⟨none, none, none⟩, ⟨some "tm", some "startup", some "x"⟩,
              ⟨some "ds", some "startup", some "success"⟩] = some 0
    ∧ (tds_wait_check 1 = some RC.TDSWAITFAILURE ↔ 1 ≠ 0) := by
  have h := tds_wait_first_matching
    [⟨none, none, none⟩, ⟨some "tm", some "startup", some "x"⟩] [] "success"
    (by decide)
  exact ⟨by simpa using h.1, h.2 1⟩

/-- C5: when the tool group loads successfully but has no host names,
`start` returns the success status (whose numeric value is 0)
immediately: whatever the rest of the orchestration would do — every
resource acquisition, bus write and the creation of the cleanup
stack happens inside `rest` — none of it runs and no effect is
produced. -/
theorem start_empty_group_success (rest : List String → RC × List Effect) :
    startStep1 (ToolGroupLoad.ok []) rest = (RC.SUCCESS, [])
    ∧ RC.code RC.SUCCESS = 0 :=
  ⟨rfl, rfl⟩

/-- C6 counterexample: the claim says `"localhost"` is added to the
bind list exactly when the bind host is not `"0.0.0.0"` and does not
resolve to the same IP as `"localhost"`.  With connect host
`"hostA"` and bind host `"hostB"` (distinct, both resolvable,
`"hostB"` neither wildcard nor loopback-aliased) the claim demands
the alias, but `RedisServer.start` takes the `host != bind_host`
branch and binds only `["hostB"]`. -/
theorem redis_bind_localhost_claim_cex :
    redisBindList "hostA" "hostB" cexResolve
      = Except.ok (["hostB"], "hostA")
    ∧ ("hostB" : String) ≠ "0.0.0.0"
    ∧ cexResolve "hostB" ≠ cexResolve "localhost"
    ∧ "localhost" ∉ (["hostB"] : List String) :=
  ⟨rfl, by decide, by decide, by decide⟩

/-- C6 amended: in `RedisServer.start` (with `bind_host` and `host`
both resolvable, as the method requires before this point), the
generated bind list carries the extra `"localhost"` alias exactly when
the connect host equals the bind host, the bind host is not the
wildcard `"0.0.0.0"`, and `"localhost"` resolves to an IP different
from the bind host's; otherwise the list is just the bind host. -/
theorem redis_bind_localhost_amended (host bind_host : String)
    (resolve : String → Option String) (bip hip : String)
    (hrb : resolve bind_host = some bip) (hrh : resolve host = some hip) :
    ∃ l lh, redisBindList host bind_host resolve = Except.ok (l, lh)
      ∧ (l = [bind_host, "localhost"] ↔
          host = bind_host ∧ bind_host ≠ "0.0.0.0"
            ∧ ∃ lip, resolve "localhost" = some lip ∧ bip ≠ lip)
      ∧ (l = [bind_host, "localhost"] ∨ l = [bind_host]) := by
  by_cases h1 : host = bind_host
  · subst h1
    by_cases h2 : host = "0.0.0.0"
    · subst h2
      refine ⟨["0.0.0.0"], "127.0.0.1", ?_, ?_, Or.inr rfl⟩
      · simp [redisBindList, hrb]
      · constructor
        · intro he
          simp at he
        · rintro ⟨-, hb, -⟩
          exact absurd rfl hb
    · cases hl : resolve "localhost" with
      | none =>
        refine ⟨[host], host, ?_, ?_, Or.inr rfl⟩
        · simp [redisBindList, hrb, h2, hl]
        · constructor
          · intro he
            simp at he
          · rintro ⟨-, -, lip, hlip, -⟩
            simp at hlip
      | some lip =>
        by_cases h3 : bip = lip
        · refine ⟨[host], host, ?_, ?_, Or.inr rfl⟩
          · simp [redisBindList, hrb, h2, hl, h3]
          · constructor
            · intro he
              simp at he
            · rintro ⟨-, -, lip', hlip', hne⟩
              obtain rfl : lip = lip' := by simpa using hlip'
              exact absurd h3 hne
        · refine ⟨[host, "localhost"], "localhost", ?_, ?_, Or.inl rfl⟩
          · simp [redisBindList, hrb, h2, hl, h3]
          · exact ⟨fun _ => ⟨rfl, h2, lip, rfl, h3⟩, fun _ => rfl⟩
  · refine ⟨[bind_host], host, ?_, ?_, Or.inr rfl⟩
    · simp [redisBindList, hrb, hrh, h1]
    · constructor
      · intro he
        simp at he
      · rintro ⟨heq, -⟩
        exact absurd heq h1

/-- Witness for C6 amended: with connect host and bind host both
`"hostA"` (resolving to `10.0.0.1`) and `"localhost"` resolving to
`127.0.0.1`, the alias is appended. -/
theorem redis_bind_localhost_amended_witness :
    ∃ l lh, redisBindList "hostA" "hostA" cexResolve = Except.ok (l, lh)
      ∧ (l = ["hostA", "localhost"] ↔
          ("hostA" : String) = "hostA" ∧ ("hostA" : String) ≠ "0.0.0.0"
            ∧ ∃ lip, cexResolve "localhost" = some lip
              ∧ ("10.0.0.1" : String) ≠ lip)
      ∧ (l = ["hostA", "localhost"] ∨ l = ["hostA"]) :=
  redis_bind_localhost_amended "hostA" "hostA" cexResolve "10.0.0.1" "10.0.0.1"
    (by decide) (by decide)

/-- C10: `terminate_no_wait` publishes exactly the JSON serialization
(keys in sorted order) of the object with `action` `"terminate"`, the
group name, a null `directory` and `args.interrupt` `false` — the
payload depends on nothing but the group name, so it is the same when
the cleanup that invokes it was triggered by a user interrupt — and
it returns normally for every publish outcome, a failed publish being
logged and swallowed. -/
theorem terminate_no_wait_payload (g : String)
    (publish : String → Except Unit Nat) :
    terminate_no_wait g publish
      = ("\x7b\"action\": \"terminate\", \"args\": \x7b\"interrupt\": false\x7d, \"directory\": null, \"group\": \"" ++ g ++ "\"\x7d",
         Except.ok ()) := by
  have hs : sortJsonF 4 (terminate_msg g)
      = JVal.obj [("action", JVal.str "terminate"),
                  ("args", JVal.obj [("interrupt", JVal.bool false)]),
                  ("directory", JVal.null),
                  ("group", JVal.str g)] := rfl
  have hp : dumpsSorted (terminate_msg g)
      = "\x7b\"action\": \"terminate\", \"args\": \x7b\"interrupt\": false\x7d, \"directory\": null, \"group\": \"" ++ g ++ "\"\x7d" := by
    apply String.ext
    rw [dumpsSorted, hs]
    simp [jdumpF, joinComma, jstr, String.data_append, List.append_assoc]
  simp only [terminate_no_wait]
  rw [hp]
  cases publish ("\x7b\"action\": \"terminate\", \"args\": \x7b\"interrupt\": false\x7d, \"directory\": null, \"group\": \"" ++ g ++ "\"\x7d") with
  | error e => rfl
  | ok n => rfl

theorem splitOnChar_no_sep (c : Char) (s : List Char) (h : c ∉ s) :
    splitOnChar c s = [s] := by
  induction s with
  | nil => rfl
  | cons x xs ih =>
    have hx : ¬ x = c := by
      rintro rfl
      exact h (List.mem_cons_self _ _)
    have hxs : c ∉ xs := fun hm => h (List.mem_cons_of_mem x hm)
    simp [splitOnChar, hx, ih hxs]

theorem splitOnChar_append (c : Char) (a b : List Char) (h : c ∉ a) :
    splitOnChar c (a ++ (c :: b)) = a :: splitOnChar c b := by
  induction a with
  | nil => simp [splitOnChar]
  | cons x a' ih =>
    have hx : ¬ x = c := by
      rintro rfl
      exact h (List.mem_cons_self _ _)
    have ha : c ∉ a' := fun hm => h (List.mem_cons_of_mem x hm)
    simp [splitOnChar, hx, ih ha]

theorem decodeDigitsAux_digits (cs : List Char) :
    ∀ acc v : Nat, decodeDigitsAux acc cs = some v →
      ∀ x ∈ cs, x.isDigit = true := by
  induction cs with
  | nil =>
    intro acc v _ x hx
    simp at hx
  | cons c cs' ih =>
    intro acc v h x hx
    by_cases hc : c.isDigit
    · rcases List.mem_cons.1 hx with rfl | hx'
      · exact hc
      · exact ih _ v (by simpa [decodeDigitsAux, hc] using h) x hx'
    · simp [decodeDigitsAux, hc] at h

theorem parsePort_digits (p : List Char) (v : Nat)
    (h : parsePort p = some v) : ∀ x ∈ p, x.isDigit = true := by
  unfold parsePort at h
  cases hd : decodeDigits p with
  | none =>
    rw [hd] at h
    simp at h
  | some w =>
    cases p with
    | nil => simp [decodeDigits] at hd
    | cons c cs =>
      have hd' : decodeDigitsAux 0 (c :: cs) = some w := hd
      exact decodeDigitsAux_digits (c :: cs) 0 w hd'

theorem digit_not_sep (x : Char) (h : x.isDigit = true) :
    x ≠ ':' ∧ x ≠ ';' := by
  refine ⟨?_, ?_⟩ <;> rintro rfl <;> exact absurd h (by decide)

/-- C9: endpoint spec parsing is lossless.  For every spec string of
the form `bindhost:bindport;connhost:connport` with both halves fully
specified (host fields non-empty and separator-free, port fields valid
port strings), the resolved descriptor's `bind_host`/`bind_port` equal
the supplied bind half and `host`/`port` the supplied connect half;
and for a bare `host:port` with no semicolon the bind fields equal the
connect fields. -/
theorem endpoint_spec_lossless (defHost : List Char) (defPort : Nat)
    (bh bp ch cp : List Char) (vb vc : Nat)
    (hbh1 : bh ≠ []) (hbh2 : ':' ∉ bh) (hbh3 : ';' ∉ bh)
    (hch1 : ch ≠ []) (hch2 : ':' ∉ ch) (hch3 : ';' ∉ ch)
    (hbp : parsePort bp = some vb) (hcp : parsePort cp = some vc) :
    parseSpec defHost defPort
        (some ((bh ++ (':' :: bp)) ++ (';' :: (ch ++ (':' :: cp)))))
      = some ⟨bh, vb, ch, vc⟩
    ∧ parseSpec defHost defPort (some (bh ++ (':' :: bp)))
      = some ⟨bh, vb, bh, vb⟩ := by
  have hbpcolon : ':' ∉ bp := fun hm =>
    (digit_not_sep ':' (parsePort_digits bp vb hbp ':' hm)).1 rfl
  have hbpsemi : ';' ∉ bp := fun hm =>
    (digit_not_sep ';' (parsePort_digits bp vb hbp ';' hm)).2 rfl
  have hcpcolon : ':' ∉ cp := fun hm =>
    (digit_not_sep ':' (parsePort_digits cp vc hcp ':' hm)).1 rfl
  have hcpsemi : ';' ∉ cp := fun hm =>
    (digit_not_sep ';' (parsePort_digits cp vc hcp ';' hm)).2 rfl
  have hnosemi : ';' ∉ bh ++ (':' :: bp) := by
    intro hm
    rcases List.mem_append.1 hm with hm | hm
    · exact hbh3 hm
    · rcases List.mem_cons.1 hm with he | hm
      · exact absurd he (by decide)
      · exact hbpsemi hm
  have hnosemi2 : ';' ∉ ch ++ (':' :: cp) := by
    intro hm
    rcases List.mem_append.1 hm with hm | hm
    · exact hch3 hm
    · rcases List.mem_cons.1 hm with he | hm
      · exact absurd he (by decide)
      · exact hcpsemi hm
  have e3 : parseHalf defHost defPort (bh ++ (':' :: bp)) = some (bh, vb) := by
    unfold parseHalf
    rw [splitOnChar_append ':' bh bp hbh2, splitOnChar_no_sep ':' bp hbpcolon]
    simp [hbp, hbh1]
  have e4 : parseHalf defHost defPort (ch ++ (':' :: cp)) = some (ch, vc) := by
    unfold parseHalf
    rw [splitOnChar_append ':' ch cp hch2, splitOnChar_no_sep ':' cp hcpcolon]
    simp [hcp, hch1]
  constructor
  · simp only [parseSpec]
    rw [splitOnChar_append ';' (bh ++ (':' :: bp)) (ch ++ (':' :: cp)) hnosemi,
      splitOnChar_no_sep ';' (ch ++ (':' :: cp)) hnosemi2]
    simp [e3, e4]
  · simp only [parseSpec]
    rw [splitOnChar_no_sep ';' (bh ++ (':' :: bp)) hnosemi]
    simp [e3]

/-- Witness for C9: `a:6379;b:80` resolves to bind `a:6379` and
connect `b:80`; bare `a:6379` resolves identically for both roles. -/
theorem endpoint_spec_lossless_witness :
    parseSpec ['d'] 17001
        (some (((['a'] ++ (':' :: ['6', '3', '7', '9']))
          ++ (';' :: (['b'] ++ (':' :: ['8', '0']))))))
      = some ⟨['a'], 6379, ['b'], 80⟩
    ∧ parseSpec ['d'] 17001 (some (['a'] ++ (':' :: ['6', '3', '7', '9'])))
      = some ⟨['a'], 6379, ['a'], 6379⟩ :=
  endpoint_spec_lossless ['d'] 17001 ['a'] ['6', '3', '7', '9'] ['b'] ['8', '0']
    6379 80 (by decide) (by decide) (by decide) (by decide) (by decide)
    (by decide) (by decide) (by decide)
